import Mathlib

/-!
Verification development for the CortexMetaAgent repository.

Shallow embedding of the parts of the code the claims are about:
- the reasoning-cost estimator (mcp-servers/mcp-reasoning-cost/server.py),
- the agent-inventory usage endpoint and its percentile helper
  (mcp-servers/mcp-agent-inventory/server.py),
- the change-detection / reaction / React-cycle logic (workflow/orchestrator.py),
- the evaluation-suite generator (agents/AutoEvalAgent/generate_eval_sets.py).

Numeric modelling: Python floats are modelled as exact rationals (ℚ); Python's
round(x, 2) (round-half-to-even at two decimals) is modelled exactly on ℚ.
Python ints are modelled as ℤ (or ℕ where the source value is a length/count).
External HTTP and LLM collaborators are modelled as explicit oracle inputs;
the file system and the in-memory caches are modelled as explicit state.
-/

namespace CortexMetaAgent

/-! ## Numeric helpers -/

/-- Round-half-to-even on ℚ, the semantics of Python's builtin round()
restricted to exact values: ties between two integers go to the even one. -/
def roundHalfEven (q : ℚ) : ℤ :=
  if q - ⌊q⌋ < 1/2 then ⌊q⌋
  else if q - ⌊q⌋ > 1/2 then ⌊q⌋ + 1
  else if 2 ∣ ⌊q⌋ then ⌊q⌋ else ⌊q⌋ + 1

/-- Model of Python's round(x, 2): round-half-to-even at two decimal places. -/
def round2 (q : ℚ) : ℚ :=
  (roundHalfEven (q * 100) : ℚ) / 100

/-- Model of Python's int() truncation toward zero on an exact value. -/
def pyInt (q : ℚ) : ℤ :=
  if q < 0 then ⌈q⌉ else ⌊q⌋

/-! ## CostEstimator (mcp-servers/mcp-reasoning-cost/server.py)

BASE_TOKENS = 500, BASE_STEPS = 5, BASE_TOOL_CALLS = 1.
Inputs are Python ints (ℤ); the /estimate endpoint rejects negatives, so the
claims carry non-negativity hypotheses. -/

/-- Translation of calculate_expansion_factor(tokens_in_trace, steps). -/
def calculate_expansion_factor (tokens_in_trace steps : ℤ) : ℚ :=
  if steps = 0 then 1.0
  else
    let expected_tokens_per_step : ℚ := 500 / 5
    let expected_tokens : ℚ := (steps : ℚ) * expected_tokens_per_step
    if expected_tokens = 0 then 1.0
    else
      let expansion : ℚ := (tokens_in_trace : ℚ) / expected_tokens
      min (round2 expansion) 3.0

/-- Translation of calculate_cost_score(steps, tool_calls, tokens_in_trace,
expansion_factor); tokens_in_trace is accepted but unused, as in the source. -/
def calculate_cost_score (steps tool_calls tokens_in_trace : ℤ)
    (expansion_factor : ℚ) : ℚ :=
  let steps_score := min ((steps : ℚ) / 20.0) 1.0 * 0.4
  let tool_score := min ((tool_calls : ℚ) / 10.0) 1.0 * 0.3
  let expansion_score := min ((expansion_factor - 1.0) / 2.0) 1.0 * 0.3
  let total_score := steps_score + tool_score + expansion_score
  round2 total_score

/-- Composition performed by the /estimate endpoint: compute the expansion
factor from the trace, then the cost score. -/
def estimate_cost_score (steps tool_calls tokens_in_trace : ℤ) : ℚ :=
  calculate_cost_score steps tool_calls tokens_in_trace
    (calculate_expansion_factor tokens_in_trace steps)

/-! ## Percentiles and the usage endpoint
(mcp-servers/mcp-agent-inventory/server.py) -/

/-- Body of the non-empty branch of calculate_percentile, applied to the
sorted data and the fractional index. Python's int() truncation appears as
pyInt; list indexing appears as getD (out-of-range reads, which Python would
fault on, only arise for percentiles outside [0, 100]). -/
def interpAt (sorted_data : List ℚ) (index : ℚ) : ℚ :=
  if index.den = 1 then sorted_data.getD (pyInt index).toNat 0
  else
    sorted_data.getD (pyInt index).toNat 0 +
      (sorted_data.getD ((pyInt index).toNat + 1) 0 -
        sorted_data.getD (pyInt index).toNat 0) * (index - (pyInt index : ℚ))

/-- Translation of calculate_percentile(data, percentile): empty data gives
0.0; otherwise sort ascending, take the fractional index p/100 * (n-1) and
either read the exact element or linearly interpolate. -/
def calculate_percentile (data : List ℚ) (percentile : ℚ) : ℚ :=
  if data = [] then 0.0
  else
    let sorted_data := data.insertionSort (· ≤ ·)
    let index : ℚ := (percentile / 100.0) * ((sorted_data.length : ℚ) - 1)
    interpAt sorted_data index

/-- Agent metadata as stored by the inventory server. -/
structure AgentMeta where
  id : String
  description : String
  avg_cost : Option ℚ
  avg_latency : Option ℚ
deriving DecidableEq

/-- One recorded execution (fields read by the usage endpoint, plus the rest
of the record as stored). -/
structure ExecRecord where
  execution_id : String
  timestamp : String
  success : Bool
  runtime_ms : Option ℚ
  input_tokens : Option ℤ
  output_tokens : Option ℤ
  total_tokens : Option ℤ
  cost_usd : Option ℚ
  error_message : Option String
deriving DecidableEq

/-- In-memory state of the AgentInventory server: agent_metadata and
execution_records, both keyed by agent id (association lists model the
Python dicts). -/
structure InventoryState where
  agent_metadata : List (String × AgentMeta)
  execution_records : List (String × List ExecRecord)

/-- Response model of GET /usage. -/
structure AgentUsageResponse where
  total_runs : ℕ
  failures : ℕ
  avg_input_tokens : ℚ
  avg_output_tokens : ℚ
  p50_latency_ms : ℚ
  p95_latency_ms : ℚ
deriving DecidableEq

/-- Translation of the get_agent_usage endpoint: a 404 error for an agent id
with no metadata entry; a zeroed summary for a known agent with no records;
otherwise aggregate statistics over the records. -/
def get_agent_usage (st : InventoryState) (agent : String) :
    Except (ℕ × String) AgentUsageResponse :=
  if (st.agent_metadata.lookup agent).isNone then
    .error (404, "Agent " ++ agent ++ " not found in inventory")
  else
    let records := (st.execution_records.lookup agent).getD []
    if records.isEmpty then
      .ok ⟨0, 0, 0.0, 0.0, 0.0, 0.0⟩
    else
      let total_runs := records.length
      let failures := (records.filter (fun r => !r.success)).length
      let input_tokens_list := records.filterMap (·.input_tokens)
      let avg_input_tokens : ℚ :=
        if input_tokens_list.isEmpty then 0.0
        else ((input_tokens_list.map (fun z : ℤ => (z : ℚ))).sum) / input_tokens_list.length
      let output_tokens_list := records.filterMap (·.output_tokens)
      let avg_output_tokens : ℚ :=
        if output_tokens_list.isEmpty then 0.0
        else ((output_tokens_list.map (fun z : ℤ => (z : ℚ))).sum) / output_tokens_list.length
      let latencies := records.filterMap (·.runtime_ms)
      let p50_latency_ms := if latencies.isEmpty then 0.0 else calculate_percentile latencies 50
      let p95_latency_ms := if latencies.isEmpty then 0.0 else calculate_percentile latencies 95
      .ok ⟨total_runs, failures, round2 avg_input_tokens, round2 avg_output_tokens,
        round2 p50_latency_ms, round2 p95_latency_ms⟩

/-! ## ChangeDetector (workflow/orchestrator.py, detect_agent_changes)

The inventory listing, per-agent config hashes and per-agent last-run times
come from external HTTP services; they are modelled as the fields of an
ObservedAgent. The persisted cache file is a map from agent id to entry; the
save_agent_state_cache side effect is recorded as a `persisted` flag. -/

/-- Python truthiness for an optional string: None and "" are falsy. -/
def truthyStr : Option String → Bool
  | none => false
  | some s => !(s == "")

/-- One cache entry of .agent_state_cache.json. -/
structure CacheEntry where
  config_hash : Option String
  last_run_time : Option String
  last_check_time : ℚ
deriving DecidableEq

/-- The agent-state cache (a Python dict). -/
def Cache : Type := String → Option CacheEntry

/-- Pointwise dict assignment. -/
def cacheInsert (c : Cache) (id : String) (e : CacheEntry) : Cache :=
  fun x => if x = id then some e else c x

/-- What the detection loop observes about one agent: its inventory listing
entry, the freshly computed config hash (none models a failed hash fetch,
which skips the agent), and the last_run_time read from the usage endpoint
(none models absence or a failed fetch). -/
structure ObservedAgent where
  id : String
  description : String
  current_hash : Option String
  last_run : Option String

/-- One element of the changed_agents result list. -/
structure ChangedAgent where
  agent_id : String
  description : String
  change_reasons : List String
  previous_hash : Option String
  current_hash : String
deriving DecidableEq

/-- Change verdict for one agent against the cache, with its reason tags in
the order the source appends them. -/
def agentHasChanged (cache : Cache) (ag : ObservedAgent) (current_hash : String) :
    Bool × List String :=
  let cached_state := cache ag.id
  let cached_hash := (cached_state.map (·.config_hash)).getD none
  let cached_last_run := (cached_state.map (·.last_run_time)).getD none
  let config_changed := truthyStr cached_hash && !(cached_hash == some current_hash)
  let redeployed := truthyStr ag.last_run && truthyStr cached_last_run &&
    !(ag.last_run == cached_last_run)
  let new_agent := !(truthyStr cached_hash)
  let reasons := (if config_changed then ["config_changed"] else []) ++
    (if redeployed then ["redeployed"] else []) ++
    (if new_agent then ["new_agent"] else [])
  (config_changed || redeployed || new_agent, reasons)

/-- Python's `if agent_id and agent_id_to_check != agent_id: continue`. -/
def skipByFilter (filter : Option String) (id : String) : Bool :=
  truthyStr filter && !(filter == some id)

/-- Loop body of detect_agent_changes for one listed agent: skip on filter
mismatch or unobtainable hash; on a changed verdict append to the changed
list and overwrite the cache entry, else leave both untouched. -/
def inspectAgent (filter : Option String) (now : ℚ)
    (acc : List ChangedAgent × Cache) (ag : ObservedAgent) :
    List ChangedAgent × Cache :=
  if skipByFilter filter ag.id then acc
  else
    match ag.current_hash with
    | none => acc
    | some current_hash =>
      let (has_changed, reasons) := agentHasChanged acc.2 ag current_hash
      if has_changed then
        (acc.1 ++ [⟨ag.id, ag.description, reasons,
            ((acc.2 ag.id).map (·.config_hash)).getD none, current_hash⟩],
          cacheInsert acc.2 ag.id ⟨some current_hash, ag.last_run, now⟩)
      else acc

/-- Outcome of one detect_agent_changes call: the returned dict plus the
resulting cache and whether save_agent_state_cache ran. -/
structure DetectOutcome where
  status : String
  error_message : Option String
  changed_agents : List ChangedAgent
  total_changed : ℕ
  cache : Cache
  persisted : Bool

/-- Translation of detect_agent_changes given a successful inventory
listing: fold the inspection over the listed agents, then persist. -/
def detect_agent_changes (agents : List ObservedAgent) (filter : Option String)
    (cache : Cache) (now : ℚ) : DetectOutcome :=
  let res := agents.foldl (inspectAgent filter now) ([], cache)
  ⟨"success", none, res.1, res.1.length, res.2, true⟩

/-- Translation of detect_agent_changes including the listing step: when the
agent list cannot be obtained (no lister available, or a non-success listing)
the call errors without touching or persisting the cache. -/
def detectTop (listing : Option (List ObservedAgent)) (filter : Option String)
    (cache : Cache) (now : ℚ) : DetectOutcome :=
  match listing with
  | none => ⟨"error", some "Could not list agents from inventory", [], 0, cache, false⟩
  | some agents => detect_agent_changes agents filter cache now

/-! ## ReactionEngine (workflow/orchestrator.py, react_to_agent_changes)

The calls to run_regression_test and generate_eval_set are external from this
function's point of view; their result statuses enter as oracle inputs. -/

/-- Status and optional error message of an external call's result dict. -/
structure OracleResult where
  status : String
  error_message : Option String
deriving DecidableEq

/-- One element of the actions_taken list. -/
structure ActionRecord where
  action : String
  status : String
  error : Option String
deriving DecidableEq

/-- Result dict of react_to_agent_changes. -/
structure ReactResult where
  status : String
  agent_id : String
  change_reasons : List String
  actions_taken : List ActionRecord
  error_message : Option String
deriving DecidableEq

/-- Translation of react_to_agent_changes: an error result when AutoEvalAgent
is unavailable; otherwise run the regression action when any of the three
change reasons is present, always run the negative-generation action, record
each action's status — and leave the overall status at "success". -/
def react_to_agent_changes (available : Bool) (agent_id : String)
    (change_reasons : List String) (regression : OracleResult)
    (negative : OracleResult) : ReactResult :=
  if !available then
    ⟨"error", agent_id, change_reasons, [], some "AutoEvalAgent not available"⟩
  else
    let actions1 :=
      if change_reasons.contains "config_changed" || change_reasons.contains "redeployed" ||
          change_reasons.contains "new_agent" then
        if regression.status = "success" then
          [⟨"regression_test_positive", "success", none⟩]
        else
          [⟨"regression_test_positive", "error",
            some (regression.error_message.getD "Regression test failed")⟩]
      else []
    let actions2 :=
      if negative.status = "success" || negative.status = "skipped" then
        [⟨"generate_negative_tests", negative.status, none⟩]
      else
        [⟨"generate_negative_tests", "error",
          some (negative.error_message.getD "Unknown error")⟩]
    ⟨"success", agent_id, change_reasons, actions1 ++ actions2, none⟩

/-! ## ReactCycleController (workflow/orchestrator.py, react_cycle) -/

/-- The actions field of the cycle result: left empty on a failed first
observe, the no_changes marker when think found nothing, else the per-agent
reaction results. -/
inductive CycleActions
  | empty
  | noChanges
  | taken (results : List (String × ReactResult))
deriving DecidableEq

/-- Result dict of react_cycle; final_observations is none when the fourth
phase never ran (the source leaves it as the initial empty dict). -/
structure CycleResult where
  status : String
  observations_status : String
  observed_changed : List ChangedAgent
  actions : CycleActions
  final_observations : Option DetectOutcome
  error_message : Option String

/-- Translation of react_cycle: observe, short-circuit on a failed or empty
observation, else act on each changed agent in detection order and observe
again on the cache left by the first observation. The second listing and the
per-agent regression/negative outcomes are oracle inputs. -/
def react_cycle (listing1 listing2 : Option (List ObservedAgent))
    (filter : Option String) (cache : Cache) (now1 now2 : ℚ)
    (available : Bool) (oracle : String → OracleResult × OracleResult) : CycleResult :=
  let changes := detectTop listing1 filter cache now1
  if changes.status ≠ "success" then
    ⟨"error", changes.status, changes.changed_agents, .empty, none, changes.error_message⟩
  else if changes.changed_agents.isEmpty then
    ⟨"success", changes.status, changes.changed_agents, .noChanges, none, none⟩
  else
    let actions_taken := changes.changed_agents.map (fun ca =>
      (ca.agent_id, react_to_agent_changes available ca.agent_id ca.change_reasons
        (oracle ca.agent_id).1 (oracle ca.agent_id).2))
    let final := detectTop listing2 filter changes.cache now2
    let status := if actions_taken.any (fun p => p.2.status ≠ "success")
      then "partial_success" else "success"
    ⟨status, changes.status, changes.changed_agents, .taken actions_taken, some final, none⟩

/-! ## EvalSetManager (agents/AutoEvalAgent/generate_eval_sets.py)

The LLM-backed per-category example generators are modelled as an oracle
(category and slot index to example); json.dumps of one example is modelled
by an explicit line encoding; the file system is a map from path to file
content. -/

/-- One generated eval example (the payloads the generators produce are
strings or structured data; their exact shape is irrelevant to the claims). -/
structure EvalExample where
  task : String
  input : String
  expected_output : Option String
  metadata : String
deriving DecidableEq

/-- File system state: path to content. -/
def FS : Type := String → Option String

/-- Writing one file. -/
def fsWrite (fs : FS) (path content : String) : FS :=
  fun p => if p = path then some content else fs p

/-- Path of the line-delimited suite file for one (agent, category) pair. -/
def jsonlPath (agent_id set_type : String) : String :=
  "eval_suites/" ++ agent_id ++ "/" ++ set_type ++ ".jsonl"

/-- Path of the converted ADK evalset file. -/
def evalsetPath (agent_id set_type : String) : String :=
  "eval_suites/" ++ agent_id ++ "/" ++ set_type ++ ".evalset.json"

/-- Model of json.dumps(example) for one line of the jsonl file. -/
def encodeExample (e : EvalExample) : String :=
  e.task ++ "\x31" ++ e.input ++ "\x31" ++ (e.expected_output.getD "null") ++
    "\x31" ++ e.metadata

/-- The jsonl file content: one encoded example per line. -/
def serializeJsonl (examples : List EvalExample) : String :=
  String.join (examples.map (fun e => encodeExample e ++ "\n"))

/-- Translation of check_if_eval_set_exists. -/
def check_if_eval_set_exists (fs : FS) (agent_id set_type : String) : Bool :=
  (fs (jsonlPath agent_id set_type)).isSome

/-- Generation loop of generate_eval_set: one oracle-produced example per
slot for each of the four known categories, and a bare `continue` (no
example) for any other category. -/
def buildExamples (gen : String → ℕ → EvalExample) (set_type : String)
    (count : ℕ) : List EvalExample :=
  (List.range count).filterMap (fun i =>
    if set_type = "positive" || set_type = "negative" || set_type = "adversarial" ||
        set_type = "stress" then some (gen set_type i)
    else none)

/-- Result dict of generate_eval_set. -/
structure GenResult where
  status : String
  agent_id : String
  set_type : String
  message : Option String
  generated : Option ℕ
  output_file_jsonl : String
  output_file_evalset : Option String
deriving DecidableEq

/-- Translation of generate_eval_set: skip (without touching the file
system) when not forced and the jsonl suite exists; else generate the
examples, write the jsonl file and the converted evalset file, and return a
success result with the generated count. -/
def generate_eval_set (fs : FS) (gen : String → ℕ → EvalExample)
    (agent_id set_type : String) (count : ℕ) (force_regenerate : Bool) :
    GenResult × FS :=
  if !force_regenerate && check_if_eval_set_exists fs agent_id set_type then
    (⟨"skipped", agent_id, set_type,
      some ("Eval set already exists for " ++ agent_id ++ "/" ++ set_type ++
        ". Use force_regenerate=True to regenerate."),
      none, jsonlPath agent_id set_type, none⟩, fs)
  else
    let examples := buildExamples gen set_type count
    let fs1 := fsWrite fs (jsonlPath agent_id set_type) (serializeJsonl examples)
    let fs2 := fsWrite fs1 (evalsetPath agent_id set_type)
      ("evalset:" ++ serializeJsonl examples)
    (⟨"success", agent_id, set_type, none, some examples.length,
      jsonlPath agent_id set_type, some (evalsetPath agent_id set_type)⟩, fs2)

/-! # Theorems -/

theorem roundHalfEven_intCast (n : ℤ) : roundHalfEven (n : ℚ) = n := by
  unfold roundHalfEven
  rw [Int.floor_intCast]
  norm_num

theorem floor_le_roundHalfEven (q : ℚ) : ⌊q⌋ ≤ roundHalfEven q := by
  unfold roundHalfEven
  split_ifs <;> omega

theorem roundHalfEven_le_floor_add_one (q : ℚ) : roundHalfEven q ≤ ⌊q⌋ + 1 := by
  unfold roundHalfEven
  split_ifs <;> omega

theorem roundHalfEven_mono {q r : ℚ} (h : q ≤ r) : roundHalfEven q ≤ roundHalfEven r := by
  have hf : ⌊q⌋ ≤ ⌊r⌋ := Int.floor_le_floor h
  rcases lt_or_eq_of_le hf with hlt | heq
  · calc roundHalfEven q ≤ ⌊q⌋ + 1 := roundHalfEven_le_floor_add_one q
      _ ≤ ⌊r⌋ := by omega
      _ ≤ roundHalfEven r := floor_le_roundHalfEven r
  · have hfrac : q - ⌊q⌋ ≤ r - ⌊r⌋ := by
      rw [← heq]; linarith
    unfold roundHalfEven
    rw [← heq]
    split_ifs <;> first | omega | linarith

theorem round2_mono {q r : ℚ} (h : q ≤ r) : round2 q ≤ round2 r := by
  unfold round2
  have : roundHalfEven (q * 100) ≤ roundHalfEven (r * 100) :=
    roundHalfEven_mono (by linarith)
  have hcast : (roundHalfEven (q * 100) : ℚ) ≤ (roundHalfEven (r * 100) : ℚ) := by
    exact_mod_cast this
  linarith

theorem round2_intCast_div_100 (n : ℤ) : round2 ((n : ℚ) / 100) = (n : ℚ) / 100 := by
  unfold round2
  rw [div_mul_cancel₀ _ (by norm_num : (100 : ℚ) ≠ 0), roundHalfEven_intCast]

theorem pyInt_of_nonneg {q : ℚ} (h : 0 ≤ q) : pyInt q = ⌊q⌋ := by
  unfold pyInt
  rw [if_neg (not_lt.mpr h)]

theorem floor_cast_eq_self_of_den_one {x : ℚ} (h : x.den = 1) : (⌊x⌋ : ℚ) = x := by
  have hx : ((x.num : ℤ) : ℚ) = x := (Rat.den_eq_one_iff x).mp h
  rw [← hx, Int.floor_intCast]

theorem floor_lt_self_of_den_ne_one {x : ℚ} (h : x.den ≠ 1) : (⌊x⌋ : ℚ) < x := by
  refine lt_of_le_of_ne (Int.floor_le x) (fun he => h ?_)
  rw [← he]
  exact Rat.den_intCast _

theorem sorted_getD_mono {s : List ℚ} (hs : List.Sorted (· ≤ ·) s) {i j : ℕ}
    (hij : i ≤ j) (hj : j < s.length) : s.getD i 0 ≤ s.getD j 0 := by
  rw [List.getD_eq_getElem s 0 (lt_of_le_of_lt hij hj), List.getD_eq_getElem s 0 hj]
  have := hs.rel_get_of_le
    (show (⟨i, lt_of_le_of_lt hij hj⟩ : Fin s.length) ≤ ⟨j, hj⟩ from Fin.mk_le_mk.mpr hij)
  simpa [List.get_eq_getElem] using this

theorem interpAt_natCast (s : List ℚ) (k : ℕ) : interpAt s (k : ℚ) = s.getD k 0 := by
  unfold interpAt
  have hden : ((k : ℚ)).den = 1 := by
    have : ((k : ℚ)) = ((k : ℤ) : ℚ) := by push_cast; ring
    rw [this, Rat.den_intCast]
  rw [if_pos hden, pyInt_of_nonneg (by positivity)]
  have : ⌊(k : ℚ)⌋ = (k : ℤ) := by
    have : ((k : ℚ)) = ((k : ℤ) : ℚ) := by push_cast; ring
    rw [this, Int.floor_intCast]
  rw [this, Int.toNat_natCast]

theorem lt_length_sub_one_of_den_ne_one {s : List ℚ} {x : ℚ} (hx0 : 0 ≤ x)
    (hxn : x ≤ (s.length : ℚ) - 1) (hden : x.den ≠ 1) : x < (s.length : ℚ) - 1 := by
  rcases lt_or_eq_of_le hxn with h | h
  · exact h
  · exfalso
    apply hden
    have hq : (0 : ℚ) ≤ (s.length : ℚ) - 1 := h ▸ hx0
    have hn1 : 1 ≤ s.length := by
      have : (1 : ℚ) ≤ (s.length : ℚ) := by linarith
      exact_mod_cast this
    have hx' : x = ((s.length - 1 : ℕ) : ℚ) := by
      rw [h, Nat.cast_sub hn1]
      norm_num
    have hcast : (((s.length - 1 : ℕ) : ℚ)) = (((s.length - 1 : ℕ) : ℤ) : ℚ) := by
      push_cast
      ring
    rw [hx', hcast, Rat.den_intCast]

theorem floor_toNat_succ_lt_length {s : List ℚ} {x : ℚ} (hx0 : 0 ≤ x)
    (hxlt : x < (s.length : ℚ) - 1) : ⌊x⌋.toNat + 1 < s.length := by
  have h0 : 0 ≤ ⌊x⌋ := Int.floor_nonneg.mpr hx0
  have h1 : (⌊x⌋ : ℚ) < (s.length : ℚ) - 1 := lt_of_le_of_lt (Int.floor_le x) hxlt
  have h2 : ⌊x⌋ < (s.length : ℤ) - 1 := by exact_mod_cast h1
  omega

theorem getD_le_interpAt {s : List ℚ} (hs : List.Sorted (· ≤ ·) s) {x : ℚ}
    (hx0 : 0 ≤ x) (hxn : x ≤ (s.length : ℚ) - 1) :
    s.getD ⌊x⌋.toNat 0 ≤ interpAt s x := by
  unfold interpAt
  rw [pyInt_of_nonneg hx0]
  split_ifs with hden
  · exact le_refl _
  · have hxlt : x < (s.length : ℚ) - 1 := lt_length_sub_one_of_den_ne_one hx0 hxn hden
    have hk1 : ⌊x⌋.toNat + 1 < s.length := floor_toNat_succ_lt_length hx0 hxlt
    have hd : s.getD ⌊x⌋.toNat 0 ≤ s.getD (⌊x⌋.toNat + 1) 0 :=
      sorted_getD_mono hs (Nat.le_succ _) hk1
    have hfr : 0 ≤ x - (⌊x⌋ : ℚ) := by linarith [Int.floor_le x]
    nlinarith

theorem interpAt_le_getD_succ {s : List ℚ} (hs : List.Sorted (· ≤ ·) s) {x : ℚ}
    (hx0 : 0 ≤ x) (hxn : x ≤ (s.length : ℚ) - 1) (hden : x.den ≠ 1) :
    interpAt s x ≤ s.getD (⌊x⌋.toNat + 1) 0 := by
  unfold interpAt
  rw [pyInt_of_nonneg hx0, if_neg hden]
  have hxlt : x < (s.length : ℚ) - 1 := lt_length_sub_one_of_den_ne_one hx0 hxn hden
  have hk1 : ⌊x⌋.toNat + 1 < s.length := floor_toNat_succ_lt_length hx0 hxlt
  have hd : s.getD ⌊x⌋.toNat 0 ≤ s.getD (⌊x⌋.toNat + 1) 0 :=
    sorted_getD_mono hs (Nat.le_succ _) hk1
  have hfr : x - (⌊x⌋ : ℚ) ≤ 1 := by linarith [Int.lt_floor_add_one x]
  nlinarith

theorem interpAt_of_den_one {s : List ℚ} {x : ℚ} (hx0 : 0 ≤ x) (hden : x.den = 1) :
    interpAt s x = s.getD ⌊x⌋.toNat 0 := by
  unfold interpAt
  rw [pyInt_of_nonneg hx0, if_pos hden]

theorem interpAt_mono {s : List ℚ} (hs : List.Sorted (· ≤ ·) s) {x y : ℚ}
    (hx0 : 0 ≤ x) (hxy : x ≤ y) (hyn : y ≤ (s.length : ℚ) - 1) :
    interpAt s x ≤ interpAt s y := by
  have hy0 : 0 ≤ y := le_trans hx0 hxy
  have hxn : x ≤ (s.length : ℚ) - 1 := le_trans hxy hyn
  have hfx0 : 0 ≤ ⌊x⌋ := Int.floor_nonneg.mpr hx0
  have hf : ⌊x⌋ ≤ ⌊y⌋ := Int.floor_le_floor hxy
  have hky : ⌊y⌋.toNat < s.length := by
    have h1 : (⌊y⌋ : ℚ) ≤ (s.length : ℚ) - 1 := le_trans (Int.floor_le y) hyn
    have h2 : ⌊y⌋ ≤ (s.length : ℤ) - 1 := by exact_mod_cast h1
    omega
  have hstep2 : s.getD ⌊y⌋.toNat 0 ≤ interpAt s y := getD_le_interpAt hs hy0 hyn
  rcases lt_or_eq_of_le hf with hlt | heq
  · by_cases hden : x.den = 1
    · rw [interpAt_of_den_one hx0 hden]
      exact le_trans (sorted_getD_mono hs (by omega) hky) hstep2
    · have h1 : interpAt s x ≤ s.getD (⌊x⌋.toNat + 1) 0 :=
        interpAt_le_getD_succ hs hx0 hxn hden
      exact le_trans h1 (le_trans (sorted_getD_mono hs (by omega) hky) hstep2)
  · by_cases hden : x.den = 1
    · rw [interpAt_of_den_one hx0 hden, heq]
      exact hstep2
    · have hfx : (⌊x⌋ : ℚ) < x := floor_lt_self_of_den_ne_one hden
      have hdeny : y.den ≠ 1 := by
        intro hy1
        have hyf : (⌊y⌋ : ℚ) = y := floor_cast_eq_self_of_den_one hy1
        rw [← heq] at hyf
        linarith
      unfold interpAt
      rw [pyInt_of_nonneg hx0, pyInt_of_nonneg hy0, if_neg hden, if_neg hdeny, ← heq]
      have hylt : y < (s.length : ℚ) - 1 := lt_length_sub_one_of_den_ne_one hy0 hyn hdeny
      have hk1 : ⌊x⌋.toNat + 1 < s.length :=
        floor_toNat_succ_lt_length hx0 (lt_of_le_of_lt hxy hylt)
      have hd : s.getD ⌊x⌋.toNat 0 ≤ s.getD (⌊x⌋.toNat + 1) 0 :=
        sorted_getD_mono hs (Nat.le_succ _) hk1
      nlinarith

theorem calculate_percentile_mono {data : List ℚ} (hne : data ≠ []) {p q : ℚ}
    (hp0 : 0 ≤ p) (hpq : p ≤ q) (hq100 : q ≤ 100) :
    calculate_percentile data p ≤ calculate_percentile data q := by
  unfold calculate_percentile
  rw [if_neg hne, if_neg hne]
  have hs : List.Sorted (· ≤ ·) (data.insertionSort (· ≤ ·)) :=
    List.sorted_insertionSort _ _
  have hn1 : 1 ≤ (data.insertionSort (· ≤ ·)).length := by
    rw [(List.perm_insertionSort (· ≤ ·) data).length_eq]
    exact List.length_pos.mpr hne
  have hnn : (0 : ℚ) ≤ ((data.insertionSort (· ≤ ·)).length : ℚ) - 1 := by
    have : (1 : ℚ) ≤ ((data.insertionSort (· ≤ ·)).length : ℚ) := by exact_mod_cast hn1
    linarith
  have h100 : (100.0 : ℚ) = 100 := by norm_num
  apply interpAt_mono hs
  · rw [h100]
    exact mul_nonneg (by positivity) hnn
  · rw [h100]
    exact mul_le_mul_of_nonneg_right (by linarith) hnn
  · rw [h100]
    calc q / 100 * (((data.insertionSort (· ≤ ·)).length : ℚ) - 1)
        ≤ 1 * (((data.insertionSort (· ≤ ·)).length : ℚ) - 1) :=
          mul_le_mul_of_nonneg_right (by linarith) hnn
      _ = ((data.insertionSort (· ≤ ·)).length : ℚ) - 1 := one_mul _

theorem calculate_percentile_zero {data : List ℚ} (hne : data ≠ []) :
    calculate_percentile data 0 ∈ data ∧ ∀ a ∈ data, calculate_percentile data 0 ≤ a := by
  unfold calculate_percentile
  rw [if_neg hne]
  dsimp only
  have hs : List.Sorted (· ≤ ·) (data.insertionSort (· ≤ ·)) :=
    List.sorted_insertionSort _ _
  have hn1 : 0 < (data.insertionSort (· ≤ ·)).length := by
    rw [(List.perm_insertionSort (· ≤ ·) data).length_eq]
    exact List.length_pos.mpr hne
  have hidx : (0 / 100.0 : ℚ) * (((data.insertionSort (· ≤ ·)).length : ℚ) - 1) =
      ((0 : ℕ) : ℚ) := by norm_num
  rw [hidx, interpAt_natCast, List.getD_eq_getElem _ 0 hn1]
  constructor
  · rw [← List.mem_insertionSort (· ≤ ·)]
    exact List.getElem_mem _
  · intro a ha
    rw [← List.mem_insertionSort (· ≤ ·)] at ha
    obtain ⟨i, hi⟩ := List.mem_iff_get.mp ha
    rw [← hi]
    have := hs.rel_get_of_le
      (show (⟨0, hn1⟩ : Fin (data.insertionSort (· ≤ ·)).length) ≤ i from
        Fin.mk_le_mk.mpr (Nat.zero_le _))
    simpa [List.get_eq_getElem] using this

theorem calculate_percentile_hundred {data : List ℚ} (hne : data ≠ []) :
    calculate_percentile data 100 ∈ data ∧
      ∀ a ∈ data, a ≤ calculate_percentile data 100 := by
  unfold calculate_percentile
  rw [if_neg hne]
  dsimp only
  have hs : List.Sorted (· ≤ ·) (data.insertionSort (· ≤ ·)) :=
    List.sorted_insertionSort _ _
  have hn1 : 1 ≤ (data.insertionSort (· ≤ ·)).length := by
    rw [(List.perm_insertionSort (· ≤ ·) data).length_eq]
    exact List.length_pos.mpr hne
  have hidx : (100 / 100.0 : ℚ) * (((data.insertionSort (· ≤ ·)).length : ℚ) - 1) =
      (((data.insertionSort (· ≤ ·)).length - 1 : ℕ) : ℚ) := by
    rw [Nat.cast_sub hn1]
    norm_num
  have hlast : (data.insertionSort (· ≤ ·)).length - 1 < (data.insertionSort (· ≤ ·)).length := by
    omega
  rw [hidx, interpAt_natCast, List.getD_eq_getElem _ 0 hlast]
  constructor
  · rw [← List.mem_insertionSort (· ≤ ·)]
    exact List.getElem_mem _
  · intro a ha
    rw [← List.mem_insertionSort (· ≤ ·)] at ha
    obtain ⟨i, hi⟩ := List.mem_iff_get.mp ha
    rw [← hi]
    have hle : i ≤ (⟨(data.insertionSort (· ≤ ·)).length - 1, hlast⟩ :
        Fin (data.insertionSort (· ≤ ·)).length) := by
      rcases i with ⟨iv, hiv⟩
      apply Fin.mk_le_mk.mpr
      omega
    have := hs.rel_get_of_le hle
    simpa [List.get_eq_getElem] using this

theorem inspectAgent_cache_ne {filter : Option String} {now : ℚ}
    (acc : List ChangedAgent × Cache) (a : ObservedAgent) {id : String}
    (h : a.id ≠ id) : (inspectAgent filter now acc a).2 id = acc.2 id := by
  unfold inspectAgent
  split_ifs with hskip
  · rfl
  · cases hh : a.current_hash with
    | none => rfl
    | some ch =>
      dsimp only
      split_ifs with hch
      · simp only [cacheInsert]
        rw [if_neg (fun he => h he.symm)]
      · rfl

theorem inspectAgent_cache_of_fst {filter : Option String} {now : ℚ}
    (l1 l2 : List ChangedAgent) (c : Cache) (a : ObservedAgent) :
    (inspectAgent filter now (l1, c) a).2 = (inspectAgent filter now (l2, c) a).2 := by
  unfold inspectAgent
  split_ifs with hskip
  · rfl
  · cases hh : a.current_hash with
    | none => rfl
    | some ch =>
      dsimp only
      split_ifs with hch
      · rfl
      · rfl

theorem foldl_inspect_cache_stable (filter : Option String) (now : ℚ) :
    ∀ (agents : List ObservedAgent) (acc : List ChangedAgent × Cache) (id : String),
      id ∉ agents.map (·.id) →
      (agents.foldl (inspectAgent filter now) acc).2 id = acc.2 id := by
  intro agents
  induction agents with
  | nil => intro acc id _; rfl
  | cons a rest ih =>
    intro acc id hid
    rw [List.map_cons, List.mem_cons] at hid
    push_neg at hid
    rw [List.foldl_cons, ih _ _ hid.2, inspectAgent_cache_ne _ _ (fun he => hid.1 he.symm)]

theorem foldl_inspect_cache_indep (filter : Option String) (now : ℚ) :
    ∀ (agents : List ObservedAgent) (l1 l2 : List ChangedAgent) (c : Cache),
      (agents.foldl (inspectAgent filter now) (l1, c)).2 =
        (agents.foldl (inspectAgent filter now) (l2, c)).2 := by
  intro agents
  induction agents with
  | nil => intro l1 l2 c; rfl
  | cons a rest ih =>
    intro l1 l2 c
    rw [List.foldl_cons, List.foldl_cons]
    have h1 : inspectAgent filter now (l1, c) a =
        ((inspectAgent filter now (l1, c) a).1, (inspectAgent filter now (l1, c) a).2) := rfl
    have h2 : inspectAgent filter now (l2, c) a =
        ((inspectAgent filter now (l2, c) a).1, (inspectAgent filter now (l2, c) a).2) := rfl
    rw [h1, h2, inspectAgent_cache_of_fst l1 l2 c a]
    exact ih _ _ _

theorem agentHasChanged_congr {c1 c2 : Cache} (ag : ObservedAgent) (h : String)
    (hc : c1 ag.id = c2 ag.id) : agentHasChanged c1 ag h = agentHasChanged c2 ag h := by
  unfold agentHasChanged
  rw [hc]

/-- Characterization of the cache left by one detection run: an inspected
agent's entry is overwritten with the fresh hash, last-run time and check
time exactly when its verdict is changed, and is left untouched when
unchanged; the cache is persisted either way. -/
theorem detect_agent_changes_cache_spec (filter : Option String) (now : ℚ) :
    ∀ (agents : List ObservedAgent) (cache : Cache),
      (agents.map (·.id)).Nodup →
      ∀ ag ∈ agents, skipByFilter filter ag.id = false →
        ∀ h, ag.current_hash = some h →
          (detect_agent_changes agents filter cache now).persisted = true ∧
          ((agentHasChanged cache ag h).1 = true →
            (detect_agent_changes agents filter cache now).cache ag.id =
              some ⟨some h, ag.last_run, now⟩) ∧
          ((agentHasChanged cache ag h).1 = false →
            (detect_agent_changes agents filter cache now).cache ag.id = cache ag.id) := by
  intro agents
  induction agents with
  | nil =>
    intro cache _ ag hag
    exact absurd hag (List.not_mem_nil ag)
  | cons a rest ih =>
    intro cache hnd ag hag hskip h hh
    rw [List.map_cons, List.nodup_cons] at hnd
    refine ⟨rfl, ?_, ?_⟩ <;> intro hch
    · -- changed verdict: the entry is the fresh one
      rcases List.mem_cons.mp hag with rfl | hmem
      · have hstable : (detect_agent_changes (ag :: rest) filter cache now).cache ag.id =
            (inspectAgent filter now ([], cache) ag).2 ag.id := by
          unfold detect_agent_changes
          rw [List.foldl_cons]
          exact foldl_inspect_cache_stable filter now rest _ ag.id hnd.1
        rw [hstable]
        unfold inspectAgent
        rw [if_neg (by simp [hskip]), hh]
        dsimp only
        rw [if_pos (by simpa using hch)]
        dsimp only
        simp [cacheInsert]
      · have hne : a.id ≠ ag.id := by
          intro he
          exact hnd.1 (he ▸ List.mem_map_of_mem (·.id) hmem)
        have hc1 : (inspectAgent filter now ([], cache) a).2 ag.id = cache ag.id :=
          inspectAgent_cache_ne _ _ hne
        have hch' : (agentHasChanged (inspectAgent filter now ([], cache) a).2 ag h).1 = true := by
          rw [agentHasChanged_congr ag h hc1]
          exact hch
        have := (ih (inspectAgent filter now ([], cache) a).2 hnd.2 ag hmem hskip h hh).2.1 hch'
        unfold detect_agent_changes at this ⊢
        rw [List.foldl_cons]
        dsimp only at this ⊢
        rw [show inspectAgent filter now ([], cache) a =
            ((inspectAgent filter now ([], cache) a).1,
              (inspectAgent filter now ([], cache) a).2) from rfl]
        rw [show (rest.foldl (inspectAgent filter now)
              ((inspectAgent filter now ([], cache) a).1,
                (inspectAgent filter now ([], cache) a).2)).2 =
            (rest.foldl (inspectAgent filter now)
              ([], (inspectAgent filter now ([], cache) a).2)).2 from
          foldl_inspect_cache_indep filter now rest _ _ _]
        exact this
    · -- unchanged verdict: the entry is untouched
      rcases List.mem_cons.mp hag with rfl | hmem
      · have hstable : (detect_agent_changes (ag :: rest) filter cache now).cache ag.id =
            (inspectAgent filter now ([], cache) ag).2 ag.id := by
          unfold detect_agent_changes
          rw [List.foldl_cons]
          exact foldl_inspect_cache_stable filter now rest _ ag.id hnd.1
        rw [hstable]
        unfold inspectAgent
        rw [if_neg (by simp [hskip]), hh]
        dsimp only
        rw [if_neg (by simpa using hch)]
      · have hne : a.id ≠ ag.id := by
          intro he
          exact hnd.1 (he ▸ List.mem_map_of_mem (·.id) hmem)
        have hc1 : (inspectAgent filter now ([], cache) a).2 ag.id = cache ag.id :=
          inspectAgent_cache_ne _ _ hne
        have hch' : (agentHasChanged (inspectAgent filter now ([], cache) a).2 ag h).1 = false := by
          rw [agentHasChanged_congr ag h hc1]
          exact hch
        have := (ih (inspectAgent filter now ([], cache) a).2 hnd.2 ag hmem hskip h hh).2.2 hch'
        unfold detect_agent_changes at this ⊢
        rw [List.foldl_cons]
        dsimp only at this ⊢
        rw [show inspectAgent filter now ([], cache) a =
            ((inspectAgent filter now ([], cache) a).1,
              (inspectAgent filter now ([], cache) a).2) from rfl]
        rw [show (rest.foldl (inspectAgent filter now)
              ((inspectAgent filter now ([], cache) a).1,
                (inspectAgent filter now ([], cache) a).2)).2 =
            (rest.foldl (inspectAgent filter now)
              ([], (inspectAgent filter now ([], cache) a).2)).2 from
          foldl_inspect_cache_indep filter now rest _ _ _]
        rw [this, hc1]

example : estimate_cost_score 5 1 500 = 13/100 := by
  norm_num [estimate_cost_score, calculate_cost_score, calculate_expansion_factor,
    round2, roundHalfEven, min_def]

example : estimate_cost_score 1 0 0 = -13/100 := by
  norm_num [estimate_cost_score, calculate_cost_score, calculate_expansion_factor,
    round2, roundHalfEven, min_def]

example : estimate_cost_score 0 0 0 = 0 := by
  norm_num [estimate_cost_score, calculate_cost_score, calculate_expansion_factor,
    round2, roundHalfEven, min_def]

theorem round2_zero : round2 0 = 0 := by
  norm_num [round2, roundHalfEven]

theorem round2_one : round2 1 = 1 := by
  norm_num [round2, roundHalfEven]

theorem round2_nonneg {q : ℚ} (h : 0 ≤ q) : 0 ≤ round2 q := by
  have := round2_mono h
  rwa [round2_zero] at this

theorem calculate_expansion_factor_nonneg (tokens_in_trace steps : ℤ)
    (hk : 0 ≤ tokens_in_trace) (hs : 0 ≤ steps) :
    0 ≤ calculate_expansion_factor tokens_in_trace steps := by
  simp only [calculate_expansion_factor]
  split_ifs with h1 h2
  · norm_num
  · norm_num
  · refine le_min (round2_nonneg ?_) (by norm_num)
    apply div_nonneg (by exact_mod_cast hk)
    have hs' : (0:ℚ) ≤ (steps : ℚ) := by exact_mod_cast hs
    positivity

theorem calculate_expansion_factor_le_three (tokens_in_trace steps : ℤ) :
    calculate_expansion_factor tokens_in_trace steps ≤ 3 := by
  simp only [calculate_expansion_factor]
  split_ifs with h1 h2
  · norm_num
  · norm_num
  · exact le_trans (min_le_right _ _) (by norm_num)

theorem calculate_expansion_factor_steps_zero (tokens_in_trace : ℤ) :
    calculate_expansion_factor tokens_in_trace 0 = 1 := by
  norm_num [calculate_expansion_factor]

theorem round2_neg_13_div_100 : round2 (-13/100 : ℚ) = -13/100 := by
  have := round2_intCast_div_100 (-13)
  push_cast at this
  linarith

/-- Bounds on the composed estimator: the unrounded total lies in [-0.13, 1]
(the lower bound needs the case split on steps, because the expansion factor
is pinned to 1 when steps = 0 and the steps sub-score is at least 0.02 when
steps ≥ 1), and rounding is monotone. -/
theorem estimate_cost_score_bounds (steps tool_calls tokens_in_trace : ℤ)
    (hs : 0 ≤ steps) (ht : 0 ≤ tool_calls) (hk : 0 ≤ tokens_in_trace) :
    -13/100 ≤ estimate_cost_score steps tool_calls tokens_in_trace ∧
      estimate_cost_score steps tool_calls tokens_in_trace ≤ 1 := by
  have hef0 : 0 ≤ calculate_expansion_factor tokens_in_trace steps :=
    calculate_expansion_factor_nonneg _ _ hk hs
  have hef3 : calculate_expansion_factor tokens_in_trace steps ≤ 3 :=
    calculate_expansion_factor_le_three _ _
  set ef := calculate_expansion_factor tokens_in_trace steps with hef
  simp only [estimate_cost_score, calculate_cost_score, ← hef]
  have hs1 : min ((steps : ℚ) / 20.0) 1.0 ≤ 1 := le_trans (min_le_right _ _) (by norm_num)
  have hs0 : 0 ≤ min ((steps : ℚ) / 20.0) 1.0 := by
    refine le_min ?_ (by norm_num)
    have : (0:ℚ) ≤ (steps : ℚ) := by exact_mod_cast hs
    positivity
  have ht1 : min ((tool_calls : ℚ) / 10.0) 1.0 ≤ 1 := le_trans (min_le_right _ _) (by norm_num)
  have ht0 : 0 ≤ min ((tool_calls : ℚ) / 10.0) 1.0 := by
    refine le_min ?_ (by norm_num)
    have : (0:ℚ) ≤ (tool_calls : ℚ) := by exact_mod_cast ht
    positivity
  have he1 : min ((ef - 1.0) / 2.0) 1.0 ≤ 1 := le_trans (min_le_right _ _) (by norm_num)
  have he0 : -(1/2 : ℚ) ≤ min ((ef - 1.0) / 2.0) 1.0 := by
    refine le_min ?_ (by norm_num)
    rw [le_div_iff₀ (by norm_num)]
    linarith
  refine ⟨?_, ?_⟩
  · have hlow : (-13/100 : ℚ) ≤
        min ((steps : ℚ) / 20.0) 1.0 * 0.4 + min ((tool_calls : ℚ) / 10.0) 1.0 * 0.3 +
          min ((ef - 1.0) / 2.0) 1.0 * 0.3 := by
      rcases eq_or_lt_of_le hs with hz | hpos
      · -- steps = 0 forces ef = 1, so the expansion sub-score is 0
        have hef1 : ef = 1 := by
          rw [hef, ← hz, calculate_expansion_factor_steps_zero]
        have : min ((ef - 1.0) / 2.0) 1.0 = 0 := by
          rw [hef1]; norm_num
        rw [this]
        nlinarith
      · -- steps ≥ 1 gives a steps sub-score of at least 0.02
        have hstep : (1/20 : ℚ) ≤ min ((steps : ℚ) / 20.0) 1.0 := by
          refine le_min ?_ (by norm_num)
          have : (1:ℚ) ≤ (steps : ℚ) := by exact_mod_cast hpos
          norm_num
          linarith
        nlinarith
    have := round2_mono hlow
    rwa [round2_neg_13_div_100] at this
  · have hhigh : min ((steps : ℚ) / 20.0) 1.0 * 0.4 + min ((tool_calls : ℚ) / 10.0) 1.0 * 0.3 +
        min ((ef - 1.0) / 2.0) 1.0 * 0.3 ≤ 1 := by nlinarith
    have := round2_mono hhigh
    rwa [round2_one] at this

theorem jsonlPath_ne_evalsetPath (a s : String) : jsonlPath a s ≠ evalsetPath a s := by
  intro he
  have h := congrArg String.length he
  simp only [jsonlPath, evalsetPath, String.length_append] at h
  have h1 : (".jsonl" : String).length = 6 := rfl
  have h2 : (".evalset.json" : String).length = 13 := rfl
  omega

theorem buildExamples_eq_nil (gen : String → ℕ → EvalExample) (set_type : String)
    (count : ℕ)
    (hcat : set_type ∉ ["positive", "negative", "adversarial", "stress"]) :
    buildExamples gen set_type count = [] := by
  simp only [List.mem_cons, List.mem_singleton, not_or] at hcat
  obtain ⟨h1, h2, h3, h4⟩ := hcat
  apply List.filterMap_eq_nil_iff.mpr
  intro i _
  simp [buildExamples, h1, h2, h3, h4]

theorem generate_eval_set_skips_of_exists (fs : FS) (gen : String → ℕ → EvalExample)
    (agent_id set_type : String) (count : ℕ)
    (hex : (fs (jsonlPath agent_id set_type)).isSome = true) :
    (generate_eval_set fs gen agent_id set_type count false).1.status = "skipped" ∧
      (generate_eval_set fs gen agent_id set_type count false).1.output_file_jsonl =
        jsonlPath agent_id set_type ∧
      (generate_eval_set fs gen agent_id set_type count false).2 = fs := by
  unfold generate_eval_set
  rw [if_pos (by simp [check_if_eval_set_exists, hex])]
  exact ⟨rfl, rfl, rfl⟩

theorem generate_eval_set_jsonl_isSome (fs : FS) (gen : String → ℕ → EvalExample)
    (agent_id set_type : String) (count : ℕ) :
    ((generate_eval_set fs gen agent_id set_type count false).2
      (jsonlPath agent_id set_type)).isSome = true := by
  unfold generate_eval_set
  split_ifs with hc
  · simpa [check_if_eval_set_exists] using hc
  · simp [fsWrite, jsonlPath_ne_evalsetPath agent_id set_type]

/-! # Claim theorems -/

/-- C1 (counterexample): at the valid input steps = 1, toolCalls = 0,
tokensInTrace = 0 the composed cost score is -0.13, strictly below 0, so the
claimed interval [0, 1.0] is violated: the expansion factor is 0, making the
uncapped-below expansion sub-score -0.15 while the steps sub-score is only
0.02. -/
theorem claim_C1_counterexample :
    estimate_cost_score 1 0 0 = -13/100 ∧ estimate_cost_score 1 0 0 < 0 := by
  constructor
  · norm_num [estimate_cost_score, calculate_cost_score, calculate_expansion_factor,
      round2, roundHalfEven, min_def]
  · norm_num [estimate_cost_score, calculate_cost_score, calculate_expansion_factor,
      round2, roundHalfEven, min_def]

/-- C1 (amended): for every input with steps ≥ 0, toolCalls ≥ 0 and
tokensInTrace ≥ 0, the cost estimator's costScore lies in the closed interval
[-0.13, 1.0]; the upper bound of the original claim holds, the lower bound 0
does not (the expansion sub-score is capped above but not below). -/
theorem claim_C1_amended (steps tool_calls tokens_in_trace : ℤ)
    (hs : 0 ≤ steps) (ht : 0 ≤ tool_calls) (hk : 0 ≤ tokens_in_trace) :
    -13/100 ≤ estimate_cost_score steps tool_calls tokens_in_trace ∧
      estimate_cost_score steps tool_calls tokens_in_trace ≤ 1 :=
  estimate_cost_score_bounds steps tool_calls tokens_in_trace hs ht hk

/-- C1 (witness): the amended bounds instantiated at the baseline trace
steps = 5, toolCalls = 1, tokensInTrace = 500. -/
theorem claim_C1_witness :
    -13/100 ≤ estimate_cost_score 5 1 500 ∧ estimate_cost_score 5 1 500 ≤ 1 :=
  claim_C1_amended 5 1 500 (by norm_num) (by norm_num) (by norm_num)

/-- C2 (counterexample): on an empty inventory, getUsage for the unknown
agent id "agentA" returns a 404 error, not a zeroed summary. -/
theorem claim_C2_counterexample :
    get_agent_usage ⟨[], []⟩ "agentA" =
      .error (404, "Agent " ++ "agentA" ++ " not found in inventory") := rfl

/-- C2 (amended): getUsage returns a 404 error for every agent id with no
metadata entry; the zeroed summary is returned only for a known agent with no
execution records, so only the known-but-empty case is the non-error "no data
yet" state. -/
theorem claim_C2_amended :
    (∀ (st : InventoryState) (a : String), st.agent_metadata.lookup a = none →
      get_agent_usage st a =
        .error (404, "Agent " ++ a ++ " not found in inventory")) ∧
    (∀ (st : InventoryState) (a : String) (m : AgentMeta),
      st.agent_metadata.lookup a = some m →
      (st.execution_records.lookup a).getD [] = [] →
      get_agent_usage st a = .ok ⟨0, 0, 0, 0, 0, 0⟩) := by
  constructor
  · intro st a h
    unfold get_agent_usage
    rw [h]
    rfl
  · intro st a m hm hrec
    unfold get_agent_usage
    rw [hm]
    dsimp only
    rw [hrec]
    norm_num

/-- C2 (witness): the amended behaviour at a one-agent inventory, for an
unknown id and for the known id with no records. -/
theorem claim_C2_witness :
    get_agent_usage ⟨[("agentA", ⟨"agentA", "Agent agentA", none, none⟩)], []⟩ "agentB" =
      .error (404, "Agent " ++ "agentB" ++ " not found in inventory") ∧
    get_agent_usage ⟨[("agentA", ⟨"agentA", "Agent agentA", none, none⟩)], []⟩ "agentA" =
      .ok ⟨0, 0, 0, 0, 0, 0⟩ :=
  ⟨claim_C2_amended.1 _ "agentB" rfl,
    claim_C2_amended.2 _ "agentA" ⟨"agentA", "Agent agentA", none, none⟩ rfl rfl⟩

/-- C4 (counterexample): a reaction for reasons ["config_changed"] whose
regression run and negative generation both report errors records two error
actions but still reports the overall per-agent status "success", so the
overall status is not success-iff-all-actions-succeeded and partialFailure is
never produced. -/
theorem claim_C4_counterexample :
    (react_to_agent_changes true "agentA" ["config_changed"]
      ⟨"error", none⟩ ⟨"error", none⟩).status = "success" ∧
    (react_to_agent_changes true "agentA" ["config_changed"]
      ⟨"error", none⟩ ⟨"error", none⟩).actions_taken.map (·.status) =
      ["error", "error"] := by
  exact ⟨rfl, rfl⟩

/-- C4 (amended): whenever react performs its actions (AutoEvalAgent
available, no exception), the overall per-agent status is "success"
regardless of the statuses of the recorded actions; no partialFailure status
exists in the code. -/
theorem claim_C4_amended (agent_id : String) (change_reasons : List String)
    (regression negative : OracleResult) :
    (react_to_agent_changes true agent_id change_reasons regression negative).status =
      "success" := rfl

/-- C6 (counterexample): with toolCalls and tokensInTrace fixed at 0, raising
steps from 0 to 1 strictly lowers the cost score (0 to -0.13), because the
expansion factor drops from the pinned 1.0 to 0.0; costScore is therefore not
monotonically non-decreasing in steps. -/
theorem claim_C6_counterexample :
    estimate_cost_score 1 0 0 < estimate_cost_score 0 0 0 := by
  have h1 : estimate_cost_score 1 0 0 = -13/100 := by
    norm_num [estimate_cost_score, calculate_cost_score, calculate_expansion_factor,
      round2, roundHalfEven, min_def]
  have h0 : estimate_cost_score 0 0 0 = 0 := by
    norm_num [estimate_cost_score, calculate_cost_score, calculate_expansion_factor,
      round2, roundHalfEven, min_def]
  rw [h0, h1]
  norm_num

/-- C6 (amended): holding steps and tokensInTrace fixed, costScore is
monotonically non-decreasing in toolCalls; the corresponding monotonicity in
steps fails because the expansion factor decreases with steps. -/
theorem claim_C6_amended (steps tokens_in_trace t1 t2 : ℤ) (h : t1 ≤ t2) :
    estimate_cost_score steps t1 tokens_in_trace ≤
      estimate_cost_score steps t2 tokens_in_trace := by
  unfold estimate_cost_score calculate_cost_score
  dsimp only
  apply round2_mono
  have hmin : min ((t1 : ℚ) / 10.0) 1.0 ≤ min ((t2 : ℚ) / 10.0) 1.0 := by
    refine min_le_min ?_ le_rfl
    have hc : (t1 : ℚ) ≤ (t2 : ℚ) := by exact_mod_cast h
    norm_num
    linarith
  linarith

/-- C6 (witness): tool-call monotonicity instantiated at steps = 5,
tokensInTrace = 500, toolCalls 1 ≤ 2. -/
theorem claim_C6_witness :
    estimate_cost_score 5 1 500 ≤ estimate_cost_score 5 2 500 :=
  claim_C6_amended 5 500 1 2 (by norm_num)

/-- C10: for a set_type outside the four known categories with no previously
persisted suite, generate_eval_set returns status "success" with generated =
0 and persists an empty line-delimited suite file (the loop body hits the
bare continue on every slot), rather than rejecting the unknown category. -/
theorem claim_C10 (fs : FS) (gen : String → ℕ → EvalExample)
    (agent_id set_type : String) (count : ℕ)
    (hcat : set_type ∉ ["positive", "negative", "adversarial", "stress"])
    (hnofile : fs (jsonlPath agent_id set_type) = none) :
    (generate_eval_set fs gen agent_id set_type count false).1.status = "success" ∧
    (generate_eval_set fs gen agent_id set_type count false).1.generated = some 0 ∧
    (generate_eval_set fs gen agent_id set_type count false).2
      (jsonlPath agent_id set_type) = some "" := by
  have hbuild : buildExamples gen set_type count = [] :=
    buildExamples_eq_nil gen set_type count hcat
  unfold generate_eval_set
  rw [if_neg (by simp [check_if_eval_set_exists, hnofile])]
  refine ⟨rfl, ?_, ?_⟩
  · dsimp only
    rw [hbuild]
    rfl
  · dsimp only
    rw [hbuild]
    simp only [fsWrite, serializeJsonl, List.map_nil]
    rw [if_neg (jsonlPath_ne_evalsetPath agent_id set_type)]
    simp only [if_true, eq_self_iff_true, if_pos]
    rfl

/-- C10 (witness): the unknown category "weird" on an empty file system. -/
theorem claim_C10_witness :
    (generate_eval_set (fun _ => none) (fun _ _ => ⟨"t", "i", none, "m"⟩)
      "agentA" "weird" 3 false).1.status = "success" ∧
    (generate_eval_set (fun _ => none) (fun _ _ => ⟨"t", "i", none, "m"⟩)
      "agentA" "weird" 3 false).1.generated = some 0 ∧
    (generate_eval_set (fun _ => none) (fun _ _ => ⟨"t", "i", none, "m"⟩)
      "agentA" "weird" 3 false).2 (jsonlPath "agentA" "weird") = some "" :=
  claim_C10 (fun _ => none) (fun _ _ => ⟨"t", "i", none, "m"⟩) "agentA" "weird" 3
    (by decide) rfl

/-- C3 (counterexample): an inspected agent whose hash and last-run time
match the cache keeps its old cache entry: the freshly computed check time 5
is not written, so the entry is not overwritten regardless of verdict. -/
theorem claim_C3_counterexample :
    (detect_agent_changes [⟨"a", "d", some "h", none⟩] none
      (fun x => if x = "a" then some ⟨some "h", none, 0⟩ else none) 5).cache "a" =
      some ⟨some "h", none, 0⟩ ∧
    (⟨some "h", none, (0 : ℚ)⟩ : CacheEntry) ≠ ⟨some "h", none, (5 : ℚ)⟩ := by
  refine ⟨rfl, ?_⟩
  intro he
  have h5 : (0 : ℚ) = 5 := congrArg CacheEntry.last_check_time he
  norm_num at h5

/-- C3 (amended): during one detection run over distinct agent ids, every
inspected agent (filter-passing, hash computable) has its cache entry
overwritten with the freshly computed hash, last-run time and check time
exactly when its verdict is changed; an unchanged agent's entry is left
untouched; the whole cache is persisted either way. -/
theorem claim_C3_amended (filter : Option String) (now : ℚ)
    (agents : List ObservedAgent) (cache : Cache)
    (hnd : (agents.map (·.id)).Nodup)
    (ag : ObservedAgent) (hmem : ag ∈ agents)
    (hskip : skipByFilter filter ag.id = false)
    (h : String) (hh : ag.current_hash = some h) :
    (detect_agent_changes agents filter cache now).persisted = true ∧
    ((agentHasChanged cache ag h).1 = true →
      (detect_agent_changes agents filter cache now).cache ag.id =
        some ⟨some h, ag.last_run, now⟩) ∧
    ((agentHasChanged cache ag h).1 = false →
      (detect_agent_changes agents filter cache now).cache ag.id = cache ag.id) :=
  detect_agent_changes_cache_spec filter now agents cache hnd ag hmem hskip h hh

/-- C3 (witness): one agent whose stored hash h1 differs from the fresh hash
h2 is a changed verdict, so its cache entry is overwritten with h2 and the
new check time 7. -/
theorem claim_C3_witness :
    (detect_agent_changes [⟨"a", "d", some "h2", none⟩] none
      (fun x => if x = "a" then some ⟨some "h1", none, 0⟩ else none) 7).persisted = true ∧
    (detect_agent_changes [⟨"a", "d", some "h2", none⟩] none
      (fun x => if x = "a" then some ⟨some "h1", none, 0⟩ else none) 7).cache "a" =
      some ⟨some "h2", none, 7⟩ := by
  have h := claim_C3_amended none 7 [⟨"a", "d", some "h2", none⟩]
    (fun x => if x = "a" then some ⟨some "h1", none, 0⟩ else none)
    (by simp) ⟨"a", "d", some "h2", none⟩ (by simp) rfl "h2" rfl
  exact ⟨h.1, h.2.1 rfl⟩

/-- C5 (counterexample): a cycle whose first observe succeeds but finds zero
changed agents returns right after the think phase: the actions field is the
no-changes marker and the post-action snapshot is never produced (the second
observe did not run), contradicting the claim that all four phases always
execute. -/
theorem claim_C5_counterexample :
    (react_cycle (some []) (some []) none (fun _ => none) 0 1 true
      (fun _ => (⟨"success", none⟩, ⟨"success", none⟩))).observations_status =
      "success" ∧
    (react_cycle (some []) (some []) none (fun _ => none) 0 1 true
      (fun _ => (⟨"success", none⟩, ⟨"success", none⟩))).actions =
      CycleActions.noChanges ∧
    (react_cycle (some []) (some []) none (fun _ => none) 0 1 true
      (fun _ => (⟨"success", none⟩, ⟨"success", none⟩))).final_observations = none :=
  ⟨rfl, rfl, rfl⟩

/-- C5 (amended): when the first observe succeeds, the second observe (the
post-action snapshot) runs exactly when the think phase found at least one
changed agent; with zero changed agents the cycle short-circuits after think
with a noChanges action result and no post-action snapshot. -/
theorem claim_C5_amended (agents : List ObservedAgent)
    (listing2 : Option (List ObservedAgent)) (filter : Option String)
    (cache : Cache) (now1 now2 : ℚ) (available : Bool)
    (oracle : String → OracleResult × OracleResult) :
    (react_cycle (some agents) listing2 filter cache now1 now2 available
      oracle).observations_status = "success" ∧
    ((detect_agent_changes agents filter cache now1).changed_agents = [] →
      (react_cycle (some agents) listing2 filter cache now1 now2 available
        oracle).actions = CycleActions.noChanges ∧
      (react_cycle (some agents) listing2 filter cache now1 now2 available
        oracle).final_observations = none) ∧
    ((detect_agent_changes agents filter cache now1).changed_agents ≠ [] →
      (react_cycle (some agents) listing2 filter cache now1 now2 available
        oracle).final_observations =
        some (detectTop listing2 filter
          (detect_agent_changes agents filter cache now1).cache now2)) := by
  refine ⟨?_, ?_, ?_⟩
  · unfold react_cycle
    rw [show detectTop (some agents) filter cache now1 =
        detect_agent_changes agents filter cache now1 from rfl]
    rw [if_neg (fun hc : (detect_agent_changes agents filter cache now1).status ≠
        "success" => hc rfl)]
    by_cases hemp : (detect_agent_changes agents filter cache now1).changed_agents.isEmpty
    · rw [if_pos hemp]
      rfl
    · rw [if_neg hemp]
      rfl
  · intro hempty
    unfold react_cycle
    rw [show detectTop (some agents) filter cache now1 =
        detect_agent_changes agents filter cache now1 from rfl]
    rw [if_neg (fun hc : (detect_agent_changes agents filter cache now1).status ≠
        "success" => hc rfl)]
    rw [if_pos (by simp [List.isEmpty_iff, hempty])]
    exact ⟨rfl, rfl⟩
  · intro hne
    unfold react_cycle
    rw [show detectTop (some agents) filter cache now1 =
        detect_agent_changes agents filter cache now1 from rfl]
    rw [if_neg (fun hc : (detect_agent_changes agents filter cache now1).status ≠
        "success" => hc rfl)]
    rw [if_neg (by simp [List.isEmpty_iff, hne])]

/-- C5 (witness): with one new agent detected, the post-action snapshot is
the outcome of re-running detection on the cache left by the first observe. -/
theorem claim_C5_witness :
    (react_cycle (some [⟨"a", "d", some "h", none⟩]) (some []) none
      (fun _ => none) 0 1 true
      (fun _ => (⟨"success", none⟩, ⟨"success", none⟩))).final_observations =
      some (detectTop (some []) none
        (detect_agent_changes [⟨"a", "d", some "h", none⟩] none
          (fun _ => none) 0).cache 1) :=
  (claim_C5_amended [⟨"a", "d", some "h", none⟩] (some []) none (fun _ => none) 0 1
    true (fun _ => (⟨"success", none⟩, ⟨"success", none⟩))).2.2 (by decide)

/-- C7: on a non-empty sample and percentiles within [0, 100], the percentile
function (sort ascending, fractional index p/100 * (n-1), exact read at an
integral index, linear interpolation otherwise) is monotone in the
percentile, returns the smallest sample element at p = 0 and the largest at
p = 100. -/
theorem claim_C7 (L : List ℚ) (p q : ℚ) (hne : L ≠ []) (hp0 : 0 ≤ p)
    (hpq : p ≤ q) (hq100 : q ≤ 100) :
    calculate_percentile L p ≤ calculate_percentile L q ∧
    (calculate_percentile L 0 ∈ L ∧ ∀ a ∈ L, calculate_percentile L 0 ≤ a) ∧
    (calculate_percentile L 100 ∈ L ∧ ∀ a ∈ L, a ≤ calculate_percentile L 100) :=
  ⟨calculate_percentile_mono hne hp0 hpq hq100,
    calculate_percentile_zero hne, calculate_percentile_hundred hne⟩

/-- C7 (witness): the percentile properties instantiated on the sample
[3, 1, 2] at percentiles 25 ≤ 75. -/
theorem claim_C7_witness :
    calculate_percentile [3, 1, 2] 25 ≤ calculate_percentile [3, 1, 2] 75 ∧
    (calculate_percentile [3, 1, 2] 0 ∈ ([3, 1, 2] : List ℚ) ∧
      ∀ a ∈ ([3, 1, 2] : List ℚ), calculate_percentile [3, 1, 2] 0 ≤ a) ∧
    (calculate_percentile [3, 1, 2] 100 ∈ ([3, 1, 2] : List ℚ) ∧
      ∀ a ∈ ([3, 1, 2] : List ℚ), a ≤ calculate_percentile [3, 1, 2] 100) :=
  claim_C7 [3, 1, 2] 25 75 (by simp) (by norm_num) (by norm_num) (by norm_num)

/-- C8: for the four known categories, if a suite file already exists for
the (agent, category) pair then an unforced generate call skips (returning
the existing file reference and leaving the file system untouched), and two
successive unforced generate calls always produce a skipped second result
with the file system, hence the persisted file, unchanged by the second
call. -/
theorem claim_C8 (fs : FS) (gen : String → ℕ → EvalExample)
    (agent_id set_type : String) (count count2 : ℕ)
    (hcat : set_type ∈ ["positive", "negative", "adversarial", "stress"]) :
    (∀ c, fs (jsonlPath agent_id set_type) = some c →
      (generate_eval_set fs gen agent_id set_type count false).1.status = "skipped" ∧
      (generate_eval_set fs gen agent_id set_type count false).1.output_file_jsonl =
        jsonlPath agent_id set_type ∧
      (generate_eval_set fs gen agent_id set_type count false).2 = fs) ∧
    ((generate_eval_set (generate_eval_set fs gen agent_id set_type count false).2
        gen agent_id set_type count2 false).1.status = "skipped" ∧
      (generate_eval_set (generate_eval_set fs gen agent_id set_type count false).2
        gen agent_id set_type count2 false).2 =
        (generate_eval_set fs gen agent_id set_type count false).2) := by
  constructor
  · intro c hc
    exact generate_eval_set_skips_of_exists fs gen agent_id set_type count
      (by rw [hc]; rfl)
  · have hex := generate_eval_set_jsonl_isSome fs gen agent_id set_type count
    have h := generate_eval_set_skips_of_exists
      (generate_eval_set fs gen agent_id set_type count false).2 gen agent_id set_type
      count2 hex
    exact ⟨h.1, h.2.2⟩

/-- C8 (witness): the skip behaviour at a file system already holding a
suite for (agentA, negative), and the skipped second of two successive
calls. -/
theorem claim_C8_witness :
    ((generate_eval_set (fun p => if p = jsonlPath "agentA" "negative"
        then some "x" else none) (fun _ _ => ⟨"t", "i", none, "m"⟩)
        "agentA" "negative" 2 false).1.status = "skipped" ∧
      (generate_eval_set (fun p => if p = jsonlPath "agentA" "negative"
        then some "x" else none) (fun _ _ => ⟨"t", "i", none, "m"⟩)
        "agentA" "negative" 2 false).1.output_file_jsonl =
        jsonlPath "agentA" "negative" ∧
      (generate_eval_set (fun p => if p = jsonlPath "agentA" "negative"
        then some "x" else none) (fun _ _ => ⟨"t", "i", none, "m"⟩)
        "agentA" "negative" 2 false).2 =
        (fun p => if p = jsonlPath "agentA" "negative" then some "x" else none)) ∧
    ((generate_eval_set (generate_eval_set (fun p => if p = jsonlPath "agentA"
        "negative" then some "x" else none) (fun _ _ => ⟨"t", "i", none, "m"⟩)
        "agentA" "negative" 2 false).2 (fun _ _ => ⟨"t", "i", none, "m"⟩)
        "agentA" "negative" 3 false).1.status = "skipped" ∧
      (generate_eval_set (generate_eval_set (fun p => if p = jsonlPath "agentA"
        "negative" then some "x" else none) (fun _ _ => ⟨"t", "i", none, "m"⟩)
        "agentA" "negative" 2 false).2 (fun _ _ => ⟨"t", "i", none, "m"⟩)
        "agentA" "negative" 3 false).2 =
        (generate_eval_set (fun p => if p = jsonlPath "agentA" "negative"
          then some "x" else none) (fun _ _ => ⟨"t", "i", none, "m"⟩)
          "agentA" "negative" 2 false).2) := by
  have h := claim_C8 (fun p => if p = jsonlPath "agentA" "negative"
      then some "x" else none) (fun _ _ => ⟨"t", "i", none, "m"⟩)
    "agentA" "negative" 2 3 (by simp)
  exact ⟨h.1 "x" (by simp), h.2⟩

/-- C9: the percentile function returns 0.0 on the empty sample for every
percentile (it never indexes out of bounds there), and the usage summary of
a known agent none of whose execution records carries a runtime value
reports p50 and p95 latency of 0.0. -/
theorem claim_C9 :
    (∀ p : ℚ, calculate_percentile [] p = 0) ∧
    (∀ (st : InventoryState) (a : String),
      (st.agent_metadata.lookup a).isSome = true →
      (∀ r ∈ (st.execution_records.lookup a).getD [], r.runtime_ms = none) →
      ∃ u, get_agent_usage st a = .ok u ∧
        u.p50_latency_ms = 0 ∧ u.p95_latency_ms = 0) := by
  constructor
  · intro p
    unfold calculate_percentile
    rw [if_pos rfl]
    norm_num
  · intro st a hk hrt
    have hnone : (st.agent_metadata.lookup a).isNone = false := by
      rcases Option.isSome_iff_exists.mp hk with ⟨m, hm⟩
      rw [hm]
      rfl
    unfold get_agent_usage
    rw [if_neg (by simp [hnone])]
    dsimp only
    have hlat : ((st.execution_records.lookup a).getD []).filterMap (·.runtime_ms) = [] :=
      List.filterMap_eq_nil_iff.mpr hrt
    by_cases hrec : ((st.execution_records.lookup a).getD []).isEmpty
    · rw [if_pos hrec]
      exact ⟨_, rfl, by norm_num, by norm_num⟩
    · rw [if_neg hrec]
      refine ⟨_, rfl, ?_, ?_⟩
      · dsimp only
        rw [hlat]
        have h0 : (0.0 : ℚ) = 0 := by norm_num
        simp only [List.isEmpty_nil, if_true, h0, round2_zero]
      · dsimp only
        rw [hlat]
        have h0 : (0.0 : ℚ) = 0 := by norm_num
        simp only [List.isEmpty_nil, if_true, h0, round2_zero]

/-- C9 (witness): a known agent with one record whose runtime is absent
reports zero p50 and p95 latency, and the empty-sample percentile at p = 37
is 0. -/
theorem claim_C9_witness :
    calculate_percentile [] 37 = 0 ∧
    ∃ u, get_agent_usage
        ⟨[("agentA", ⟨"agentA", "Agent agentA", none, none⟩)],
          [("agentA", [⟨"e1", "t1", true, none, some 5, some 7, none, none, none⟩])]⟩
        "agentA" = .ok u ∧ u.p50_latency_ms = 0 ∧ u.p95_latency_ms = 0 :=
  ⟨claim_C9.1 37,
    claim_C9.2 _ "agentA" rfl (by
      intro r hr
      have hr' : r = ⟨"e1", "t1", true, none, some 5, some 7, none, none, none⟩ := by
        simpa using hr
      rw [hr'])⟩

end CortexMetaAgent
